import Mathlib

/-! Shallow embedding of the Kaleidoscope front end (lexer and
recursive-descent parser).  Each definition transcribes the corresponding
function of the C++ source; machine characters are modelled as `Char`,
C `int` character codes as `Int` (with `EOF = -1`), and the `double`
payload of number tokens as `Rat` (the exact decimal value produced by
the modelled `strtod`; every value appearing in the claims is exactly
representable, so rounding plays no role).  The mutable globals
(`last_char`, `CurTok`, the remaining input) become explicit state
records threaded through the functions, and loops whose body pulls from
the input become structural recursion on the remaining input; the one
genuinely recursive parser knot carries a fuel argument, with
`PResult.diverge` denoting a computation that does not return. -/

namespace Kaleidoscope

/-! Character classification, following the C ctype functions on int
codes; `EOF` is the C stdio end-of-input sentinel. -/

def EOF : Int := -1

def isspace (c : Int) : Bool :=
  c = 32 || c = 9 || c = 10 || c = 11 || c = 12 || c = 13

def isalpha (c : Int) : Bool :=
  (65 ≤ c && c ≤ 90) || (97 ≤ c && c ≤ 122)

def isdigit (c : Int) : Bool :=
  48 ≤ c && c ≤ 57

def isalnum (c : Int) : Bool :=
  isalpha c || isdigit c

def isascii (c : Int) : Bool :=
  0 ≤ c && c ≤ 127

/-- Code of a character as a C int. -/
def charCode (c : Char) : Int := (c.toNat : Int)

/-! Tokens.  The C lexer returns an `int`: the codes 0-255 for plain
characters and the negative `enum Token` values for the classified
tokens.  The globals `identifierString` and `NumVal`, filled in when the
token is an identifier or a number, are modelled as payloads of the
token itself. -/

inductive Tok where
  | tok_eof : Tok
  | tok_def : Tok
  | tok_extern : Tok
  | tok_identifier (s : String) : Tok
  | tok_number (v : Rat) : Tok
  | tok_char (c : Char) : Tok
  deriving Repr, DecidableEq

/-- Integer encoding of a token, exactly the int the C functions see:
the enum values -1 .. -5, or the character code. -/
def Tok.code : Tok → Int
  | Tok.tok_eof => -1
  | Tok.tok_def => -2
  | Tok.tok_extern => -3
  | Tok.tok_identifier _ => -4
  | Tok.tok_number _ => -5
  | Tok.tok_char c => charCode c

/-! The lexer.  `gettok` reads characters with one unit of lookahead
(`last_char`, initially a space); the remaining input is a list of
characters and `getchar` on exhausted input yields `EOF`. -/

structure LexState where
  last_char : Int
  input : List Char
  deriving Repr, DecidableEq

/-- Model of C getchar on the remaining input. -/
def getchar : List Char → Int × List Char
  | [] => (EOF, [])
  | c :: cs => (charCode c, cs)

/-- The whitespace-skipping loop of gettok:
while (isspace(last_char)) last_char = getchar(). -/
def skipSpace (lc : Int) : List Char → Int × List Char
  | [] => if isspace lc then (EOF, []) else (lc, [])
  | c :: cs => if isspace lc then skipSpace (charCode c) cs else (lc, c :: cs)

/-- The identifier loop of gettok:
while (isalnum((last_char = getchar()))) identifierString += last_char. -/
def readIdent (acc : String) : List Char → String × Int × List Char
  | [] => (acc, EOF, [])
  | c :: cs =>
    if isalnum (charCode c) then readIdent (acc.push c) cs
    else (acc, charCode c, cs)

/-- The number loop of gettok:
do num_str += last_char; last_char = getchar();
while (isdigit(last_char) or last_char = dot). -/
def readNum (lc : Int) (acc : List Char) : List Char → List Char × Int × List Char
  | [] => (acc ++ [Char.ofNat lc.toNat], EOF, [])
  | c :: cs =>
    if isdigit (charCode c) || charCode c = 46 then
      readNum (charCode c) (acc ++ [Char.ofNat lc.toNat]) cs
    else (acc ++ [Char.ofNat lc.toNat], charCode c, cs)

/-- The comment loop of gettok:
do last_char = getchar(); while (last_char not EOF, newline or CR). -/
def skipComment : List Char → Int × List Char
  | [] => (EOF, [])
  | c :: cs =>
    if charCode c = 10 || charCode c = 13 then (charCode c, cs)
    else skipComment cs

/-- Value of one decimal digit character. -/
def digitVal (c : Char) : Nat := c.toNat - 48

/-- Decimal value of a digit string. -/
def natOfDigits (ds : List Char) : Nat :=
  ds.foldl (fun a c => 10 * a + digitVal c) 0

/-- Model of C strtod restricted to the strings the number branch of the
lexer builds (characters drawn from digits and dots): longest prefix of
the form digits, optional dot, digits; conversion stops at any further
character (so a second dot ends the number), and a string with no
leading digits and no fractional digits (such as a lone dot) has no
conversion and yields 0.  The value is the exact rational: the integer
digits shifted past the fractional length plus the fractional digits,
all over ten to the fractional length. -/
def strtod (s : List Char) : Rat :=
  let ip := s.takeWhile (fun c => isdigit (charCode c))
  let r := s.dropWhile (fun c => isdigit (charCode c))
  let fp := match r with
    | c :: r2 => if c = '.' then r2.takeWhile (fun c => isdigit (charCode c)) else []
    | [] => []
  mkRat (natOfDigits ip * 10 ^ fp.length + natOfDigits fp) (10 ^ fp.length)

/-- The lexer gettok.  The fuel bounds only the self-recursion taken
after a comment (one unit per comment); `none` means the fuel ran out. -/
def gettok : Nat → LexState → Option (Tok × LexState)
  | 0, _ => none
  | fuel + 1, st =>
    match skipSpace st.last_char st.input with
    | (lc, inp) =>
      if isalpha lc then
        match readIdent (String.singleton (Char.ofNat lc.toNat)) inp with
        | (s, lc2, inp2) =>
          if s = "def" then some (Tok.tok_def, ⟨lc2, inp2⟩)
          else if s = "extern" then some ( Tok.tok_extern, ⟨lc2, inp2⟩)
          else some (Tok.tok_identifier s, ⟨lc2, inp2⟩)
      else if isdigit lc || lc = 46 then
        match readNum lc [] inp with
        | (ds, lc2, inp2) => some (Tok.tok_number (strtod ds), ⟨lc2, inp2⟩)
      else if lc = 35 then
        match skipComment inp with
        | (lc2, inp2) =>
          if lc2 ≠ EOF then gettok fuel ⟨lc2, inp2⟩
          else some (Tok.tok_eof, ⟨lc2, inp2⟩)
      else if lc = EOF then some (Tok.tok_eof, ⟨lc, inp⟩)
      else
        match getchar inp with
        | (lc2, inp2) => some (Tok.tok_char (Char.ofNat lc.toNat), ⟨lc2, inp2⟩)

/-- Run the lexer from a state until it yields tok_eof, collecting the
tokens before the eof; `none` when the fuel runs out. -/
def tokenize : Nat → LexState → Option (List Tok)
  | 0, _ => none
  | fuel + 1, st =>
    match gettok (fuel + 1) st with
    | none => none
    | some (Tok.tok_eof, _) => some []
    | some (t, st2) => (tokenize fuel st2).map (fun ts => t :: ts)

/-- Fresh lexer state over an input string: last_char starts as a space. -/
def lexInit (s : String) : LexState := ⟨32, s.data⟩

/-! AST node model, one variant per C++ class.  The binary operator is
kept as the character the parser read. -/

inductive ExprAST where
  | NumberExprAST (Val : Rat) : ExprAST
  | VariableExprAST (Name : String) : ExprAST
  | BinaryExprAST (Op : Char) (LHS RHS : ExprAST) : ExprAST
  | CallExprAST (Callee : String) (Args : List ExprAST) : ExprAST
  deriving Repr

structure PrototypeAST where
  Name : String
  Args : List String
  deriving Repr, DecidableEq

structure FunctionAST where
  Proto : PrototypeAST
  Body : ExprAST
  deriving Repr

/-! Parser state: the one-token buffer CurTok plus the remaining token
stream.  The real parser pulls tokens from the lexer on demand; a
pre-lexed stream padded with tok_eof is observationally the same, since
gettok keeps returning tok_eof once the input is exhausted. -/

structure PState where
  CurTok : Tok
  rest : List Tok
  deriving Repr, DecidableEq

/-- First token of a stream, tok_eof when it is exhausted. -/
def headTok : List Tok → Tok
  | [] => Tok.tok_eof
  | t :: _ => t

/-- getNextToken: CurTok = gettok(). -/
def getNextToken (st : PState) : PState :=
  ⟨headTok st.rest, st.rest.tail⟩

/-- Parser entry state for a token stream: the driver primes CurTok by
calling getNextToken once before dispatching. -/
def startParse (ts : List Tok) : PState :=
  getNextToken ⟨Tok.tok_eof, ts⟩

/-- identifierString global as seen by the parser: the payload of the
current token when it is an identifier (stale otherwise; the parser only
reads it under that guard). -/
def identifierString (st : PState) : String :=
  match st.CurTok with
  | Tok.tok_identifier s => s
  | _ => ""

/-- NumVal global as seen by the parser: the payload of the current
token when it is a number (stale otherwise). -/
def NumVal (st : PState) : Rat :=
  match st.CurTok with
  | Tok.tok_number v => v
  | _ => 0

/-- Result of a parser routine: a value with the parser state after it,
an error (LogError / nullptr with the printed message), or a computation
that never returns (also used when the fuel runs out). -/
inductive PResult (α : Type) where
  | ok (val : α) (st : PState) : PResult α
  | err (msg : String) : PResult α
  | diverge : PResult α
  deriving Repr

/-- The operator-precedence table installed by main:
BinopPrecedence of < + - * is 10 20 30 40. -/
def BinopPrecedence : List (Char × Int) :=
  [('<', 10), ('+', 20), ('-', 30), ('*', 40)]

/-- Read of std map operator[]: the stored value, or the
default-constructed 0 for an absent key (operator[] inserts the 0; for
later lookups that is indistinguishable from defaulting, which is how it
is modelled). -/
def mapGet (table : List (Char × Int)) (c : Char) : Int :=
  match table.lookup c with
  | some v => v
  | none => 0

/-- GetTokPrecedence: -1 unless CurTok is an ascii code whose entry in
the table is positive. -/
def GetTokPrecedence (table : List (Char × Int)) (CurTok : Tok) : Int :=
  if !(isascii CurTok.code) then -1
  else
    let TokPrec := mapGet table (Char.ofNat CurTok.code.toNat)
    if TokPrec ≤ 0 then -1 else TokPrec

/-- ParseBinOpRHS exactly as the source writes it: an unconditional loop
whose body computes the precedence of the current token and either
returns LHS (when it is below ExprPrec) or goes round again having
changed nothing.  The fuel counts loop iterations; running out is
`diverge`, and since an iteration that does not exit leaves the state
untouched, no finite fuel ever suffices there. -/
def ParseBinOpRHS (table : List (Char × Int)) :
    Nat → Int → ExprAST → PState → PResult ExprAST
  | 0, _, _, _ => PResult.diverge
  | fuel + 1, ExprPrec, LHS, st =>
    let TokPrec := GetTokPrecedence table st.CurTok
    if TokPrec < ExprPrec then PResult.ok LHS st
    else ParseBinOpRHS table fuel ExprPrec LHS st

/-- ParseNumberExpr: build the literal from NumVal and eat the token. -/
def ParseNumberExpr (st : PState) : PResult ExprAST :=
  PResult.ok (ExprAST.NumberExprAST (NumVal st)) (getNextToken st)

mutual

/-- ParseExpression: primary then binoprhs from precedence 0. -/
def ParseExpression (table : List (Char × Int)) :
    Nat → PState → PResult ExprAST
  | 0, _ => PResult.diverge
  | fuel + 1, st =>
    match ParsePrimary table fuel st with
    | PResult.ok LHS st1 => ParseBinOpRHS table (fuel + 1) 0 LHS st1
    | PResult.err m => PResult.err m
    | PResult.diverge => PResult.diverge

/-- ParsePrimary: dispatch on the current token. -/
def ParsePrimary (table : List (Char × Int)) :
    Nat → PState → PResult ExprAST
  | 0, _ => PResult.diverge
  | fuel + 1, st =>
    match st.CurTok with
    | Tok.tok_identifier _ => ParseIdentifierExpr table fuel st
    | Tok.tok_number _ => ParseNumberExpr st
    | Tok.tok_char c =>
      if c = '(' then ParseParenExpr table fuel st
      else PResult.err "unknown token when expecting an expression"
    | _ => PResult.err "unknown token when expecting an expression"

/-- ParseParenExpr: eat the open paren, parse the inner expression,
require and eat the close paren. -/
def ParseParenExpr (table : List (Char × Int)) :
    Nat → PState → PResult ExprAST
  | 0, _ => PResult.diverge
  | fuel + 1, st =>
    match ParseExpression table fuel (getNextToken st) with
    | PResult.ok V st2 =>
      if st2.CurTok = Tok.tok_char ')' then PResult.ok V (getNextToken st2)
      else PResult.err "expected \x27)"
    | PResult.err m => PResult.err m
    | PResult.diverge => PResult.diverge

/-- ParseIdentifierExpr exactly as the source writes it: a bare
identifier is a variable reference; on an open paren, an immediately
following close paren yields a call with no arguments, and otherwise
control enters the argument loop, every path of which returns out of the
function (the build of the call node after the loop is reachable only by
skipping the loop). -/
def ParseIdentifierExpr (table : List (Char × Int)) :
    Nat → PState → PResult ExprAST
  | 0, _ => PResult.diverge
  | fuel + 1, st =>
    let IdName := identifierString st
    let st1 := getNextToken st
    if st1.CurTok ≠ Tok.tok_char '(' then
      PResult.ok (ExprAST.VariableExprAST IdName) st1
    else
      let st2 := getNextToken st1
      if st2.CurTok = Tok.tok_char ')' then
        PResult.ok (ExprAST.CallExprAST IdName []) (getNextToken st2)
      else ParseCallArgs table fuel IdName [] st2

/-- The argument loop of ParseIdentifierExpr, as the source writes it:
parse an expression, append it, then if the current token is a close
paren report the argument-list error, else eat one token and repeat. -/
def ParseCallArgs (table : List (Char × Int)) :
    Nat → String → List ExprAST → PState → PResult ExprAST
  | 0, _, _, _ => PResult.diverge
  | fuel + 1, IdName, Args, st =>
    match ParseExpression table fuel st with
    | PResult.ok Arg st1 =>
      if st1.CurTok = Tok.tok_char ')' then
        PResult.err "Expected \x27)\x27 or \x27,\x27 in argument list"
      else ParseCallArgs table fuel IdName (Args ++ [Arg]) (getNextToken st1)
    | PResult.err m => PResult.err m
    | PResult.diverge => PResult.diverge

end

/-- The parameter-name loop of ParsePrototype, run on the stream after
the open paren: while (getNextToken() == tok_identifier) push
identifierString; returns the collected names and the state at the first
non-identifier token. -/
def protoArgNames (ArgNames : List String) : List Tok → List String × PState
  | [] => (ArgNames, ⟨Tok.tok_eof, []⟩)
  | t :: ts =>
    match t with
    | Tok.tok_identifier s => protoArgNames (ArgNames ++ [s]) ts
    | _ => (ArgNames, ⟨t, ts⟩)

/-- ParsePrototype: identifier, open paren, identifier list, close
paren. -/
def ParsePrototype (st : PState) : PResult PrototypeAST :=
  match st.CurTok with
  | Tok.tok_identifier FnName =>
    let st1 := getNextToken st
    if st1.CurTok ≠ Tok.tok_char '(' then
      PResult.err "Expected \x27(\x27 in prototype"
    else
      match protoArgNames [] st1.rest with
      | (ArgNames, st2) =>
        if st2.CurTok ≠ Tok.tok_char ')' then
          PResult.err "Expected \x27)\x27 in prototype"
        else PResult.ok ⟨FnName, ArgNames⟩ (getNextToken st2)
  | _ => PResult.err "Expected function name in prototype"

/-- ParseDefinition: eat def, parse a prototype, parse the body
expression, combine; a failing sub-parse is returned as is. -/
def ParseDefinition (table : List (Char × Int)) (fuel : Nat) (st : PState) :
    PResult FunctionAST :=
  let st1 := getNextToken st
  match ParsePrototype st1 with
  | PResult.ok Proto st2 =>
    match ParseExpression table fuel st2 with
    | PResult.ok E st3 => PResult.ok ⟨Proto, E⟩ st3
    | PResult.err m => PResult.err m
    | PResult.diverge => PResult.diverge
  | PResult.err m => PResult.err m
  | PResult.diverge => PResult.diverge

/-- ParseExtern exactly as the source writes it: the line meant to eat
the extern keyword reads `getNextToken;` without call parentheses, a
statement with no effect, so the prototype parse starts while CurTok is
still the extern keyword. -/
def ParseExtern (st : PState) : PResult PrototypeAST :=
  ParsePrototype st

/-- Code of the first character of a list, EOF when it is empty. -/
def headCharCode : List Char → Int
  | [] => EOF
  | c :: _ => charCode c

/-! Helper lemmas. -/

theorem binop_exit (table : List (Char × Int)) (p : Int) (l : ExprAST)
    (st : PState) (fuel : Nat) (h : GetTokPrecedence table st.CurTok < p) :
    ParseBinOpRHS table (fuel + 1) p l st = PResult.ok l st := by
  simp [ParseBinOpRHS, h]

theorem binop_spin (table : List (Char × Int)) (p : Int) (l : ExprAST)
    (st : PState) (h : ¬ GetTokPrecedence table st.CurTok < p) :
    ∀ fuel, ParseBinOpRHS table fuel p l st = PResult.diverge := by
  intro fuel
  induction fuel with
  | zero => rfl
  | succ n ih => simp [ParseBinOpRHS, h, ih]

theorem expr_num (table : List (Char × Int)) (v : Rat) (rest : List Tok)
    (fuel : Nat) :
    ParseExpression table (fuel + 2) ⟨Tok.tok_number v, rest⟩ =
      ParseBinOpRHS table (fuel + 2) 0 (ExprAST.NumberExprAST v)
        ⟨headTok rest, rest.tail⟩ := by
  simp [ParseExpression, ParsePrimary, ParseNumberExpr, NumVal, getNextToken]

theorem expr_num_op_diverges (table : List (Char × Int)) (v : Rat) (c : Char)
    (rest : List Tok) (h : ¬ GetTokPrecedence table (Tok.tok_char c) < 0) :
    ∀ fuel, ParseExpression table fuel
      ⟨Tok.tok_number v, Tok.tok_char c :: rest⟩ = PResult.diverge := by
  intro fuel
  match fuel with
  | 0 => rfl
  | 1 => simp [ParseExpression, ParsePrimary]
  | (n + 2) =>
    rw [expr_num]
    exact binop_spin table 0 (ExprAST.NumberExprAST v) ⟨Tok.tok_char c, rest⟩ h _

/-- C2: the claim states that ParseBinOpRHS terminates for every token
stream and minimum precedence because an iteration that does not exit
consumes the operator token.  The code is the other way round: the loop
body consumes nothing, so whenever the current token's precedence is not
below ExprPrec the function never returns, at every fuel. -/
theorem C2_binop_rhs_never_consumes (table : List (Char × Int)) (fuel : Nat)
    (ExprPrec : Int) (LHS : ExprAST) (st : PState)
    (h : ¬ GetTokPrecedence table st.CurTok < ExprPrec) :
    ParseBinOpRHS table fuel ExprPrec LHS st = PResult.diverge :=
  binop_spin table ExprPrec LHS st h fuel

/-- Witness for C2 at min precedence 0 with a plus as the current
token. -/
theorem C2_binop_rhs_never_consumes_witness :
    ParseBinOpRHS BinopPrecedence 5 0 (ExprAST.NumberExprAST 1)
      ⟨Tok.tok_char '+', []⟩ = PResult.diverge :=
  C2_binop_rhs_never_consumes BinopPrecedence 5 0 (ExprAST.NumberExprAST 1)
    ⟨Tok.tok_char '+', []⟩ (by decide)

/-- C1: with the table carrying plus at 20 and times at 40, the claim
says ParseExpression on the token streams of 1+2*3 and 1*2+3 returns the
standard precedence-climbing trees.  The code instead reaches the
draft's binary-operator loop with the first operator as the current
token, whose precedence 20 or 40 is not below 0, and never returns: no
amount of fuel produces any result. -/
theorem C1_expression_diverges_on_claimed_inputs :
    (∀ fuel, ParseExpression [('+', 20), ('*', 40)] fuel
      (startParse [Tok.tok_number 1, Tok.tok_char '+', Tok.tok_number 2,
        Tok.tok_char '*', Tok.tok_number 3]) = PResult.diverge)
  ∧ (∀ fuel, ParseExpression [('+', 20), ('*', 40)] fuel
      (startParse [Tok.tok_number 1, Tok.tok_char '*', Tok.tok_number 2,
        Tok.tok_char '+', Tok.tok_number 3]) = PResult.diverge) := by
  constructor <;> intro fuel
  · exact expr_num_op_diverges [('+', 20), ('*', 40)] 1 '+'
      [Tok.tok_number 2, Tok.tok_char '*', Tok.tok_number 3] (by decide) fuel
  · exact expr_num_op_diverges [('+', 20), ('*', 40)] 1 '*'
      [Tok.tok_number 2, Tok.tok_char '+', Tok.tok_number 3] (by decide) fuel

/-- C4: the claim says ParseExtern consumes the extern keyword and then
parses the prototype.  Because the keyword-eating line has no call
parentheses, the prototype parse starts at the extern keyword itself and
always fails with the function-name diagnostic, whatever follows. -/
theorem C4_extern_keyword_not_consumed (rest : List Tok) :
    ParseExtern ⟨ Tok.tok_extern, rest⟩ =
      PResult.err "Expected function name in prototype" := rfl

/-- C6: with the table installed by main, a character with no entry gets
precedence -1 from GetTokPrecedence, a character with an entry gets that
entry's (positive) value, and on precedence -1 the climbing loop returns
left unchanged at once for any non-negative minimum precedence. -/
theorem C6_precedence_table_semantics :
    (∀ c : Char, List.lookup c BinopPrecedence = none →
      GetTokPrecedence BinopPrecedence (Tok.tok_char c) = -1)
  ∧ (∀ c p, (c, p) ∈ BinopPrecedence →
      GetTokPrecedence BinopPrecedence (Tok.tok_char c) = p)
  ∧ (∀ (table : List (Char × Int)) (p : Int) (l : ExprAST) (st : PState)
      (fuel : Nat), GetTokPrecedence table st.CurTok = -1 → 0 ≤ p →
      ParseBinOpRHS table (fuel + 1) p l st = PResult.ok l st) := by
  refine ⟨fun c h => ?_, fun c p h => ?_, fun table p l st fuel h hp => ?_⟩
  · by_cases ha : isascii (Tok.code (Tok.tok_char c)) = true
    · simp only [Tok.code, charCode] at ha
      simp [GetTokPrecedence, Tok.code, charCode, ha, mapGet,
        Char.ofNat_toNat, h]
    · simp [GetTokPrecedence, ha, Bool.not_eq_true _ ▸ ha]
  · fin_cases h <;> decide
  · exact binop_exit table p l st fuel (by omega)

/-- Witness for C6: the percent character has no entry and gets -1, the
plus character has the entry 20, and on a percent the loop exits with
left unchanged. -/
theorem C6_precedence_table_semantics_witness :
    GetTokPrecedence BinopPrecedence (Tok.tok_char '%') = -1
  ∧ GetTokPrecedence BinopPrecedence (Tok.tok_char '+') = 20
  ∧ ParseBinOpRHS BinopPrecedence 1 0 (ExprAST.NumberExprAST 1)
      ⟨Tok.tok_char '%', []⟩ =
      PResult.ok (ExprAST.NumberExprAST 1) ⟨Tok.tok_char '%', []⟩ :=
  ⟨C6_precedence_table_semantics.1 '%' (by decide),
   C6_precedence_table_semantics.2.1 '+' 20 (by decide),
   C6_precedence_table_semantics.2.2 BinopPrecedence 0
     (ExprAST.NumberExprAST 1) ⟨Tok.tok_char '%', []⟩ 0 (by decide) (by decide)⟩

/-- C10: every non-character token code is negative, fails the ascii
range check so GetTokPrecedence gives -1 over any table, and the climbing
loop therefore returns left unchanged on it for any non-negative minimum
precedence. -/
theorem C10_nonchar_tokens_not_operators (t : Tok)
    (h : t = Tok.tok_eof ∨ t = Tok.tok_def ∨ t = Tok.tok_extern ∨
      (∃ s, t = Tok.tok_identifier s) ∨ (∃ v, t = Tok.tok_number v)) :
    (Tok.code t < 0 ∧ isascii (Tok.code t) = false)
  ∧ (∀ table, GetTokPrecedence table t = -1)
  ∧ (∀ (table : List (Char × Int)) (p : Int) (l : ExprAST) (rest : List Tok)
      (fuel : Nat), 0 ≤ p →
      ParseBinOpRHS table (fuel + 1) p l ⟨t, rest⟩ = PResult.ok l ⟨t, rest⟩) := by
  have hcode : Tok.code t < 0 ∧ isascii (Tok.code t) = false := by
    rcases h with rfl | rfl | rfl | ⟨s, rfl⟩ | ⟨v, rfl⟩ <;>
      exact ⟨by norm_num [Tok.code], by norm_num [Tok.code, isascii]⟩
  have hprec : ∀ table, GetTokPrecedence table t = -1 := by
    intro table
    simp [GetTokPrecedence, hcode.2]
  refine ⟨hcode, hprec, fun table p l rest fuel hp => ?_⟩
  exact binop_exit table p l ⟨t, rest⟩ fuel (by have := hprec table; simp only [PState.CurTok] at *; omega)

/-- C3: the claim says the argument loop of ParseIdentifierExpr consumes
commas and terminates cleanly on the close paren, giving the call node
for foo(1, 2+3) and the empty call for foo().  In the code the loop
treats a close paren after an argument as an error and eats any other
token, so on foo(1, 2+3) the parse never returns (the argument 2+3 hits
the non-consuming binary-operator loop), on foo(1, 2) it reports the
argument-list error instead of building the call, and only the
zero-argument call foo() is built (the loop is skipped entirely). -/
theorem C3_call_argument_loop_broken :
    (∀ fuel, ParseIdentifierExpr BinopPrecedence fuel
      (startParse [Tok.tok_identifier "foo", Tok.tok_char '(',
        Tok.tok_number 1, Tok.tok_char ',', Tok.tok_number 2,
        Tok.tok_char '+', Tok.tok_number 3, Tok.tok_char ')']) =
      PResult.diverge)
  ∧ ParseIdentifierExpr BinopPrecedence 10
      (startParse [Tok.tok_identifier "foo", Tok.tok_char '(',
        Tok.tok_number 1, Tok.tok_char ',', Tok.tok_number 2,
        Tok.tok_char ')']) =
      PResult.err "Expected \x27)\x27 or \x27,\x27 in argument list"
  ∧ ParseIdentifierExpr BinopPrecedence 5
      (startParse [Tok.tok_identifier "foo", Tok.tok_char '(',
        Tok.tok_char ')']) =
      PResult.ok (ExprAST.CallExprAST "foo" []) ⟨Tok.tok_eof, []⟩ := by
  refine ⟨fun fuel => ?_, rfl, rfl⟩
  rcases fuel with _ | n
  · rfl
  · have h1 : ParseIdentifierExpr BinopPrecedence (n + 1)
        (startParse [Tok.tok_identifier "foo", Tok.tok_char '(',
          Tok.tok_number 1, Tok.tok_char ',', Tok.tok_number 2,
          Tok.tok_char '+', Tok.tok_number 3, Tok.tok_char ')']) =
        ParseCallArgs BinopPrecedence n "foo" []
          ⟨Tok.tok_number 1, [Tok.tok_char ',', Tok.tok_number 2,
            Tok.tok_char '+', Tok.tok_number 3, Tok.tok_char ')']⟩ := by
      simp [ParseIdentifierExpr, identifierString, getNextToken, headTok,
        startParse]
    rw [h1]
    rcases n with _ | m
    · rfl
    · rcases m with _ | k
      · rfl
      · rcases k with _ | j
        · rfl
        · have he : ParseExpression BinopPrecedence (j + 2)
              ⟨Tok.tok_number 1, [Tok.tok_char ',', Tok.tok_number 2,
                Tok.tok_char '+', Tok.tok_number 3, Tok.tok_char ')']⟩ =
              PResult.ok (ExprAST.NumberExprAST 1)
                ⟨Tok.tok_char ',', [Tok.tok_number 2, Tok.tok_char '+',
                  Tok.tok_number 3, Tok.tok_char ')']⟩ := by
            rw [expr_num]
            exact binop_exit _ 0 _ _ _ (by decide)
          have hd := expr_num_op_diverges BinopPrecedence 2 '+'
            [Tok.tok_number 3, Tok.tok_char ')'] (by decide)
          simp [ParseCallArgs, he, hd, getNextToken, headTok]

/-- C5: a failing sub-parse propagates: ParseDefinition fails when the
prototype parse fails or when the body parse fails, and a successful
ParseDefinition is exactly a successful prototype followed by a
successful body; ParseParenExpr fails when the inner expression fails or
the close paren is missing. -/
theorem C5_failure_propagation (table : List (Char × Int)) (fuel : Nat)
    (st : PState) :
    (∀ m, ParsePrototype (getNextToken st) = PResult.err m →
      ParseDefinition table fuel st = PResult.err m)
  ∧ (∀ P st2 m, ParsePrototype (getNextToken st) = PResult.ok P st2 →
      ParseExpression table fuel st2 = PResult.err m →
      ParseDefinition table fuel st = PResult.err m)
  ∧ (∀ F st3, ParseDefinition table fuel st = PResult.ok F st3 →
      ∃ st2, ParsePrototype (getNextToken st) = PResult.ok F.Proto st2 ∧
        ParseExpression table fuel st2 = PResult.ok F.Body st3)
  ∧ (∀ m, ParseExpression table fuel (getNextToken st) = PResult.err m →
      ParseParenExpr table (fuel + 1) st = PResult.err m)
  ∧ (∀ V st2, ParseExpression table fuel (getNextToken st) = PResult.ok V st2 →
      st2.CurTok ≠ Tok.tok_char ')' →
      ParseParenExpr table (fuel + 1) st = PResult.err "expected \x27)") := by
  refine ⟨fun m h => ?_, fun P st2 m h1 h2 => ?_, fun F st3 h => ?_,
    fun m h => ?_, fun V st2 h1 h2 => ?_⟩
  · simp [ParseDefinition, h]
  · simp [ParseDefinition, h1, h2]
  · simp only [ParseDefinition] at h
    cases hp : ParsePrototype (getNextToken st) with
    | ok P st2 =>
      simp only [hp] at h
      cases he : ParseExpression table fuel st2 with
      | ok E st3x =>
        simp only [he] at h
        cases h
        exact ⟨st2, rfl, he⟩
      | err m => simp [he] at h
      | diverge => simp [he] at h
    | err m => simp [hp] at h
    | diverge => simp [hp] at h
  · simp [ParseParenExpr, h]
  · simp [ParseParenExpr, h1, h2]

/-- Witness for C5: a def keyword followed by nothing makes the
prototype parse fail, and ParseDefinition returns that failure. -/
theorem C5_failure_propagation_witness :
    ParseDefinition BinopPrecedence 3 ⟨Tok.tok_def, []⟩ =
      PResult.err "Expected function name in prototype" :=
  (C5_failure_propagation BinopPrecedence 3 ⟨Tok.tok_def, []⟩).1
    "Expected function name in prototype" rfl

/-- The parameter-name loop visits exactly the leading identifier tokens
and stops at the first non-identifier token. -/
theorem protoArgNames_spec (params : List String) (acc : List String)
    (t : Tok) (ts : List Tok) (ht : ∀ s, t ≠ Tok.tok_identifier s) :
    protoArgNames acc (params.map Tok.tok_identifier ++ t :: ts) =
      (acc ++ params, ⟨t, ts⟩) := by
  induction params generalizing acc with
  | nil =>
    cases t <;> first
      | exact absurd rfl (ht _)
      | simp [protoArgNames]
  | cons p ps ih =>
    have h1 : protoArgNames acc
        (List.map Tok.tok_identifier (p :: ps) ++ t :: ts) =
        protoArgNames (acc ++ [p])
          (List.map Tok.tok_identifier ps ++ t :: ts) := rfl
    rw [h1, ih (acc ++ [p])]
    simp

/-- C7: ParsePrototype on an identifier, an open paren, zero or more
identifiers and a close paren returns the prototype with the name and
the parameter names in order, and fails with the stated diagnostics when
the name, the open paren or the close paren is missing. -/
theorem C7_prototype_correct :
    (∀ (name : String) (params : List String) (rest : List Tok),
      ParsePrototype ⟨Tok.tok_identifier name,
        Tok.tok_char '(' :: List.map Tok.tok_identifier params ++
          Tok.tok_char ')' :: rest⟩ =
        PResult.ok (PrototypeAST.mk name params)
          (getNextToken ⟨Tok.tok_char ')', rest⟩))
  ∧ (∀ st, (∀ s, st.CurTok ≠ Tok.tok_identifier s) →
      ParsePrototype st = PResult.err "Expected function name in prototype")
  ∧ (∀ (name : String) (rest : List Tok), headTok rest ≠ Tok.tok_char '(' →
      ParsePrototype ⟨Tok.tok_identifier name, rest⟩ =
        PResult.err "Expected \x27(\x27 in prototype")
  ∧ (∀ (name : String) (params : List String) (t : Tok) (ts : List Tok),
      (∀ s, t ≠ Tok.tok_identifier s) →
      t ≠ Tok.tok_char ')' →
      ParsePrototype ⟨Tok.tok_identifier name,
        Tok.tok_char '(' :: List.map Tok.tok_identifier params ++ t :: ts⟩ =
        PResult.err "Expected \x27)\x27 in prototype") := by
  refine ⟨fun name params rest => ?_, fun st h => ?_, fun name rest h => ?_,
    fun name params t ts ht htp => ?_⟩
  · have hl := protoArgNames_spec params [] (Tok.tok_char ')') rest
      (fun s h => Tok.noConfusion h)
    simp [ParsePrototype, getNextToken, headTok, hl]
  · cases hc : st.CurTok <;> first
      | exact absurd hc (h _)
      | simp [ParsePrototype, hc]
  · simp [ParsePrototype, getNextToken, h]
  · have hl := protoArgNames_spec params [] t ts ht
    simp [ParsePrototype, getNextToken, headTok, hl, htp]

/-- Witness for C7: the prototype foo(a b c) parses to name foo with
parameters a b c, and the three failure diagnostics fire on a missing
name, a missing open paren and a missing close paren. -/
theorem C7_prototype_correct_witness :
    ParsePrototype ⟨Tok.tok_identifier "foo",
      [Tok.tok_char '(', Tok.tok_identifier "a", Tok.tok_identifier "b",
        Tok.tok_identifier "c", Tok.tok_char ')']⟩ =
      PResult.ok ⟨"foo", ["a", "b", "c"]⟩ ⟨Tok.tok_eof, []⟩
  ∧ ParsePrototype ⟨Tok.tok_def, []⟩ =
      PResult.err "Expected function name in prototype"
  ∧ ParsePrototype ⟨Tok.tok_identifier "foo", [Tok.tok_number 1]⟩ =
      PResult.err "Expected \x27(\x27 in prototype"
  ∧ ParsePrototype ⟨Tok.tok_identifier "foo",
      [Tok.tok_char '(', Tok.tok_identifier "a", Tok.tok_def,
        Tok.tok_char ')']⟩ =
      PResult.err "Expected \x27)\x27 in prototype" :=
  ⟨C7_prototype_correct.1 "foo" ["a", "b", "c"] [],
   C7_prototype_correct.2.1 ⟨Tok.tok_def, []⟩ (fun s h => Tok.noConfusion h),
   C7_prototype_correct.2.2.1 "foo" [Tok.tok_number 1] (by decide),
   C7_prototype_correct.2.2.2 "foo" ["a"] Tok.tok_def [Tok.tok_char ')']
     (fun s h => Tok.noConfusion h) (by decide)⟩

/-- Witness for C10 at the def keyword token. -/
theorem C10_nonchar_tokens_not_operators_witness :
    (Tok.code Tok.tok_def < 0 ∧ isascii (Tok.code Tok.tok_def) = false)
  ∧ GetTokPrecedence BinopPrecedence Tok.tok_def = -1
  ∧ ParseBinOpRHS BinopPrecedence 1 0 (ExprAST.NumberExprAST 1)
      ⟨Tok.tok_def, []⟩ =
      PResult.ok (ExprAST.NumberExprAST 1) ⟨Tok.tok_def, []⟩ :=
  ⟨(C10_nonchar_tokens_not_operators Tok.tok_def (Or.inr (Or.inl rfl))).1,
   (C10_nonchar_tokens_not_operators Tok.tok_def (Or.inr (Or.inl rfl))).2.1
     BinopPrecedence,
   (C10_nonchar_tokens_not_operators Tok.tok_def (Or.inr (Or.inl rfl))).2.2
     BinopPrecedence 0 (ExprAST.NumberExprAST 1) [] 0 (by decide)⟩

/-- C8: the input with a comment lexes to exactly the token sequence of
the input without it: two number tokens 1 and 2, the comment yielding no
token because the hash branch discards through the newline and recurses. -/
theorem C8_comment_stripping :
    tokenize 10 (lexInit "1 # comment\n2") =
      some [Tok.tok_number 1, Tok.tok_number 2]
  ∧ tokenize 10 (lexInit "1\n2") =
      some [Tok.tok_number 1, Tok.tok_number 2] :=
  ⟨rfl, rfl⟩

/-- Whitespace skipping does not depend on which whitespace character is
in the lookahead. -/
theorem skipSpace_congr (a b : Int) (ha : isspace a = true)
    (hb : isspace b = true) (l : List Char) : skipSpace a l = skipSpace b l := by
  cases l <;> simp [skipSpace, ha, hb]

/-- Whitespace skipping consumes a leading all-whitespace block. -/
theorem skipSpace_ws : ∀ (ws : List Char) (lc : Int), isspace lc = true →
    (∀ c ∈ ws, isspace (charCode c) = true) →
    ∀ rest, skipSpace lc (ws ++ rest) = skipSpace lc rest := by
  intro ws
  induction ws with
  | nil => intro lc _ _ rest; rfl
  | cons w ws2 ih =>
    intro lc hlc h rest
    have hw : isspace (charCode w) = true := h w (List.mem_cons_self w ws2)
    have h2 : ∀ c ∈ ws2, isspace (charCode c) = true :=
      fun c hc => h c (List.mem_cons_of_mem w hc)
    calc skipSpace lc ((w :: ws2) ++ rest)
        = skipSpace (charCode w) (ws2 ++ rest) := by
          simp [skipSpace, hlc]
      _ = skipSpace (charCode w) rest := ih (charCode w) hw h2 rest
      _ = skipSpace lc rest := skipSpace_congr _ _ hw hlc rest

/-- A character whose code is the dot code is the dot. -/
theorem charCode_eq_dot (c : Char) (h : charCode c = 46) : c = '.' := by
  simp only [charCode] at h
  have h2 : c.toNat = 46 := by exact_mod_cast h
  rw [← Char.ofNat_toNat c, h2]

/-- C9: on any input whose first non-whitespace character is a dot not
followed by a digit or another dot, the number branch of gettok fires
without requiring any digit: the token is a number token whose value is
the strtod conversion of the lone dot string, which is 0. -/
theorem C9_lone_dot_is_number_token :
    (∀ (ws rest : List Char) (fuel : Nat),
      (∀ c ∈ ws, isspace (charCode c) = true) →
      (∀ c ts, rest = c :: ts → isdigit (charCode c) = false ∧ c ≠ '.') →
      gettok (fuel + 1) ⟨32, ws ++ '.' :: rest⟩ =
        some (Tok.tok_number 0, ⟨headCharCode rest, rest.tail⟩))
  ∧ strtod ['.'] = 0 := by
  refine ⟨fun ws rest fuel hws hrest => ?_, by decide⟩
  have hsp32 : isspace (32 : Int) = true := by decide
  have hsp46 : isspace (46 : Int) = false := by decide
  have hcdot : charCode '.' = 46 := by decide
  have h1 : skipSpace 32 (ws ++ '.' :: rest) = (46, rest) := by
    rw [skipSpace_ws ws 32 hsp32 hws ('.' :: rest)]
    cases rest <;> simp [skipSpace, hcdot, hsp32, hsp46]
  have h2 : readNum 46 [] rest = (['.'], headCharCode rest, rest.tail) := by
    cases rest with
    | nil => rfl
    | cons c cs =>
      obtain ⟨hd, hne⟩ := hrest c cs rfl
      have h46 : ¬ charCode c = 46 := fun hc => hne (charCode_eq_dot c hc)
      simp [readNum, hd, h46, headCharCode]
  have hstr : strtod ['.'] = 0 := by decide
  have ha46 : isalpha (46 : Int) = false := by decide
  simp [gettok, h1, h2, hstr, ha46]

/-- Witness for C9: one space, a dot, then the letter x. -/
theorem C9_lone_dot_is_number_token_witness :
    gettok 1 ⟨32, [' ', '.', 'x']⟩ = some (Tok.tok_number 0, ⟨120, []⟩) :=
  C9_lone_dot_is_number_token.1 [' '] ['x'] 0 (by decide)
    (by intro c ts h; cases h; exact ⟨by decide, by decide⟩)

end Kaleidoscope
